import Mathlib

/-!
Verification of the RabbitMQ ingress (cmd/ingress/main.go) of eventing-rabbitmq.

The file shallowly embeds the publish pipeline (`send`), the HTTP handler
(`ServeHTTP`), the connection setup (`CreateRabbitMQConnections`) and the
retry loop of `main`.  External effects (JSON marshalling, the AMQP publish
call, the broker confirmation, the measured elapsed time) are supplied as
explicit oracle inputs, and the effects the code performs (the publish
attempt with its message, the reporter calls, the retry signals) are
returned as explicit outputs, so every function is pure and executable.
-/

/-- CloudEvent as consumed by the ingress `send`: the attributes it reads
(`event.Type()`, `event.Source()`, `event.Subject()`, `event.Extensions()`).
Extension values are modelled as strings; only their keys and identity matter
for the properties proved here. -/
structure Event where
  eventType : String
  source : String
  subject : String
  extensions : List (String × String)
deriving DecidableEq

/-- Go map from string keys, modelled extensionally (amqp.Table). -/
def Table : Type := String → Option String

/-- Empty table. -/
def emptyTable : Table := fun _ => none

/-- Go map assignment `t[k] = v`: later writes overwrite earlier ones. -/
def tableSet (t : Table) (k v : String) : Table :=
  fun q => if q = k then some v else t q

/-- Header construction of `send`: the five-entry literal
`amqp.Table{"type": ..., "source": ..., "subject": ..., "traceparent": tp,
"tracestate": ts}` followed by the `for key, val := range event.Extensions()`
loop that assigns each extension into the table. -/
def buildHeaders (e : Event) (tp ts : String) : Table :=
  let base :=
    tableSet (tableSet (tableSet (tableSet (tableSet emptyTable
      "type" e.eventType) "source" e.source) "subject" e.subject)
      "traceparent" tp) "tracestate" ts
  e.extensions.foldl (fun t kv => tableSet t kv.1 kv.2) base

/-- amqp.Publishing as constructed by `send`. -/
structure Publishing where
  headers : Table
  contentType : String
  body : List Nat
  deliveryMode : Nat

/-- amqp.Persistent. -/
def persistentMode : Nat := 2

/-- The noDuration sentinel of the Go source (`noDuration = -1`),
"signals that the dispatch step hasn't started". -/
def noDuration : Int := -1

/-- Oracle for the external effects of one `send` call:
`marshal` is the outcome of `json.Marshal(event)` (`none` = error),
`publishErr` tells whether `PublishWithDeferredConfirm` returns an error,
`ack` is the confirmation value returned by `dc.Wait()`, and `elapsed` is
the nonnegative number of nanoseconds measured by `time.Since(start)` when
the confirmation arrives. -/
structure SendWorld where
  marshal : Option (List Nat)
  publishErr : Bool
  ack : Bool
  elapsed : Nat
deriving DecidableEq

/-- Result of `send`: its three return values `(int, time.Duration, error)`
(with `errored` standing for `err != nil`), together with the effect trace:
the publishing handed to `PublishWithDeferredConfirm` (if it was called) and
whether `dc.Wait()` was reached. -/
structure SendResult where
  status : Nat
  duration : Int
  errored : Bool
  publishAttempt : Option Publishing
  waited : Bool

/-- Shallow embedding of `envConfig.send` (cmd/ingress/main.go): marshal the
event, build the headers from the event and the span trace pair `(tp, ts)`,
publish with deferred confirm, wait for the confirmation, and map the outcome
to `(status, duration, error)` exactly as the source does. -/
def send (e : Event) (tp ts : String) (w : SendWorld) : SendResult :=
  match w.marshal with
  | none =>
      { status := 400, duration := noDuration, errored := true,
        publishAttempt := none, waited := false }
  | some bytes =>
      let pub : Publishing :=
        { headers := buildHeaders e tp ts,
          contentType := "application/json",
          body := bytes,
          deliveryMode := persistentMode }
      if w.publishErr then
        { status := 500, duration := noDuration, errored := true,
          publishAttempt := some pub, waited := false }
      else if w.ack then
        { status := 202, duration := (w.elapsed : Int), errored := false,
          publishAttempt := some pub, waited := true }
      else
        { status := 500, duration := noDuration, errored := true,
          publishAttempt := some pub, waited := true }

/-- Incoming HTTP request as seen by `ServeHTTP`: the method, the request
URI, the outcome of `binding.ToEvent` (`none` = extraction error) and
whether `event.Validate()` returned nil. -/
structure Request where
  method : String
  requestURI : String
  parsedEvent : Option Event
  valid : Bool

/-- Observable outcome of one `ServeHTTP` call: the status written to the
response, the `ReportEventDispatchTime` call (status and duration) if made,
the `ReportEventCount` call (status) if made, and the publish attempt. -/
structure ServeResult where
  written : Nat
  dispatchReport : Option (Nat × Int)
  countReport : Option Nat
  publishAttempt : Option Publishing

/-- Shallow embedding of `envConfig.ServeHTTP` (cmd/ingress/main.go):
reject non-POST with 405, non-"/" with 404, extraction or validation
failure with 400; otherwise run `send`, report dispatch time only when
`dispatchTime > noDuration`, always report the event count, and write the
status returned by `send`. -/
def serveHTTP (req : Request) (tp ts : String) (w : SendWorld) : ServeResult :=
  if req.method ≠ "POST" then
    { written := 405, dispatchReport := none, countReport := none,
      publishAttempt := none }
  else if req.requestURI ≠ "/" then
    { written := 404, dispatchReport := none, countReport := none,
      publishAttempt := none }
  else
    match req.parsedEvent with
    | none =>
        { written := 400, dispatchReport := none, countReport := none,
          publishAttempt := none }
    | some event =>
        if req.valid = false then
          { written := 400, dispatchReport := none, countReport := none,
            publishAttempt := none }
        else
          let r := send event tp ts w
          { written := r.status,
            dispatchReport :=
              if noDuration < r.duration then some (r.status, r.duration)
              else none,
            countReport := some r.status,
            publishAttempt := r.publishAttempt }

/-- Modelled from the spec: `SignalRetry` (pkg/rabbit, not under src/) sends
its boolean argument once on the retry channel; `CreateRabbitMQConnections`
invokes it in a fresh goroutine, so the emission is recorded as output
rather than blocking the caller. -/
def signalRetry (b : Bool) : List Bool := [b]

/-- Result of `CreateRabbitMQConnections`: the returned connection and
channel (identified by numbers), whether a non-nil error was returned,
whether `CloseRabbitMQConnections` was called on the partially-opened pair,
and the signals sent asynchronously on the retry channel. -/
structure ConnResult where
  connection : Option Nat
  channel : Option Nat
  errored : Bool
  closedPartial : Bool
  retrySignals : List Bool
deriving DecidableEq

/-- Shallow embedding of `envConfig.CreateRabbitMQConnections`
(cmd/ingress/main.go).  `setup` is the outcome of `SetupRabbitMQ`
(`none` = error, `some (c, ch)` = the opened pair) and `confirmErr` tells
whether `channel.Confirm(false)` fails; `Confirm` is only attempted when
setup succeeded.  On any error the pair is closed, one `true` retry signal
is sent asynchronously, and `(nil, nil, err)` is returned immediately. -/
def createRabbitMQConnections (setup : Option (Nat × Nat)) (confirmErr : Bool) :
    ConnResult :=
  match setup with
  | none =>
      { connection := none, channel := none, errored := true,
        closedPartial := true, retrySignals := signalRetry true }
  | some (c, ch) =>
      if confirmErr then
        { connection := none, channel := none, errored := true,
          closedPartial := true, retrySignals := signalRetry true }
      else
        { connection := some c, channel := some ch, errored := false,
          closedPartial := false, retrySignals := [] }

/-- Action performed by one iteration of the retry-loop goroutine of `main`:
either a reconnect attempt (carrying its result) or closing the retry
channel before terminating. -/
inductive LoopAction where
  | reconnect (r : ConnResult)
  | closeRetry
deriving DecidableEq

/-- Shallow embedding of the retry-loop goroutine of `main`, driven by the
trace of values received on the retry channel.  `connect` gives the outcome
of the `i`-th `CreateRabbitMQConnections` call and `n` counts the calls made
so far.  Receiving `false` closes the retry channel and breaks out of the
loop, so signals after the first `false` are never received. -/
def retryLoop (connect : Nat → ConnResult) (n : Nat) :
    List Bool → List LoopAction
  | [] => []
  | false :: _ => [LoopAction.closeRetry]
  | true :: rest => LoopAction.reconnect (connect n) :: retryLoop connect (n + 1) rest

/-- The `(env.connection, env.channel)` pair stored by the retry-loop
goroutine after processing the given received values: each `true` received
replaces the stored pair with the result of the next connect call. -/
def retryLoopStored (connect : Nat → ConnResult) (n : Nat)
    (stored : Option Nat × Option Nat) : List Bool → Option Nat × Option Nat
  | [] => stored
  | false :: _ => stored
  | true :: rest =>
      retryLoopStored connect (n + 1)
        ((connect n).connection, (connect n).channel) rest

/-- Value of the last entry with key `k` in an association list; a fold of
Go map assignments over the list realizes exactly this lookup. -/
def lookupLast : List (String × String) → String → Option String
  | [], _ => none
  | kv :: rest, k =>
      match lookupLast rest k with
      | some v => some v
      | none => if k = kv.1 then some kv.2 else none

theorem foldl_tableSet_apply (l : List (String × String)) (t : Table) (k : String) :
    (l.foldl (fun t kv => tableSet t kv.1 kv.2) t) k =
      match lookupLast l k with
      | some v => some v
      | none => t k := by
  induction l generalizing t with
  | nil => rfl
  | cons kv rest ih =>
      simp only [List.foldl_cons, ih, lookupLast]
      cases h : lookupLast rest k with
      | some v => rfl
      | none =>
          simp only [tableSet]
          by_cases hk : k = kv.1 <;> simp [hk]

theorem lookupLast_eq_none (l : List (String × String)) (k : String)
    (h : k ∉ l.map Prod.fst) : lookupLast l k = none := by
  induction l with
  | nil => rfl
  | cons kv rest ih =>
      simp only [List.map_cons, List.mem_cons, not_or] at h
      simp only [lookupLast, ih h.2]
      simp [h.1]

theorem lookupLast_of_mem (l : List (String × String)) (k v : String)
    (hnd : (l.map Prod.fst).Nodup) (hm : (k, v) ∈ l) :
    lookupLast l k = some v := by
  induction l with
  | nil => cases hm
  | cons kv rest ih =>
      simp only [List.map_cons, List.nodup_cons] at hnd
      rcases List.mem_cons.mp hm with h | h
      · have hk : k = kv.1 := congrArg Prod.fst h
        have hv : v = kv.2 := congrArg Prod.snd h
        have hnotin : k ∉ rest.map Prod.fst := by rw [hk]; exact hnd.1
        simp only [lookupLast, lookupLast_eq_none rest k hnotin]
        simp [hk, hv]
      · simp only [lookupLast, ih hnd.2 h]

/-- C1: `send` returns 202 exactly when the broker delivers a positive
confirmation (the marshal succeeded, the publish call succeeded, and
`dc.Wait()` returned true); in the ack case the returned duration is the
elapsed time measured from immediately before the publish call to receipt of
the confirmation, and the error is nil. -/
theorem send_accepted_iff_ack (e : Event) (tp ts : String) (w : SendWorld) :
    ((send e tp ts w).status = 202 ↔
      (w.marshal.isSome ∧ w.publishErr = false ∧ w.ack = true))
    ∧ (∀ b : List Nat, ∀ el : Nat,
        (send e tp ts ⟨some b, false, true, el⟩).duration = (el : Int)
        ∧ (send e tp ts ⟨some b, false, true, el⟩).errored = false) := by
  obtain ⟨m, pe, a, el⟩ := w
  refine ⟨?_, ?_⟩
  · cases m <;> cases pe <;> cases a <;> simp [send]
  · intro b el2
    simp [send]

/-- C2 counterexample: on a nack (marshal ok, publish call ok, `dc.Wait()`
returns false) the code returns the noDuration sentinel, not the measured
elapsed time, so the duration is the unset sentinel despite the claim. -/
theorem send_nack_counterexample :
    (send ⟨"t", "s", "u", []⟩ "tp" "ts" ⟨some [], false, false, 7⟩).status = 500
    ∧ (send ⟨"t", "s", "u", []⟩ "tp" "ts" ⟨some [], false, false, 7⟩).errored = true
    ∧ ¬ ((send ⟨"t", "s", "u", []⟩ "tp" "ts" ⟨some [], false, false, 7⟩).duration
          ≠ noDuration) := by
  refine ⟨rfl, rfl, ?_⟩
  intro h
  exact h rfl

/-- C2 (amended): on a nack, `send` returns status 500 and a non-nil error,
and the returned duration is the noDuration sentinel (the measured elapsed
time is computed but discarded by the source). -/
theorem send_nack_spec (e : Event) (tp ts : String) (b : List Nat) (el : Nat) :
    (send e tp ts ⟨some b, false, false, el⟩).status = 500
    ∧ (send e tp ts ⟨some b, false, false, el⟩).errored = true
    ∧ (send e tp ts ⟨some b, false, false, el⟩).duration = noDuration := by
  simp [send]

/-- C3: when the JSON marshal fails, `send` returns 400, the noDuration
sentinel and an error without calling publish; when the marshal succeeds but
the publish call itself fails, `send` returns 500, the noDuration sentinel
and an error without waiting for a confirmation. -/
theorem send_failure_paths (e : Event) (tp ts : String)
    (pe a : Bool) (el : Nat) (b : List Nat) (a2 : Bool) (el2 : Nat) :
    ((send e tp ts ⟨none, pe, a, el⟩).status = 400
      ∧ (send e tp ts ⟨none, pe, a, el⟩).duration = noDuration
      ∧ (send e tp ts ⟨none, pe, a, el⟩).errored = true
      ∧ (send e tp ts ⟨none, pe, a, el⟩).publishAttempt = none)
    ∧ ((send e tp ts ⟨some b, true, a2, el2⟩).status = 500
      ∧ (send e tp ts ⟨some b, true, a2, el2⟩).duration = noDuration
      ∧ (send e tp ts ⟨some b, true, a2, el2⟩).errored = true
      ∧ (send e tp ts ⟨some b, true, a2, el2⟩).waited = false) := by
  refine ⟨⟨rfl, rfl, rfl, rfl⟩, ?_⟩
  simp [send]

/-- C10: `send` returns a non-nil error exactly when its status code is not
202: both 400 and 500 outcomes carry an error and the 202 outcome does not. -/
theorem send_error_iff_not_accepted (e : Event) (tp ts : String) (w : SendWorld) :
    (send e tp ts w).errored = true ↔ (send e tp ts w).status ≠ 202 := by
  obtain ⟨m, pe, a, el⟩ := w
  cases m <;> cases pe <;> cases a <;> simp [send]

/-- C4: the headers built by `send` contain exactly the five reserved keys
(type, source, subject, traceparent, tracestate, the first three copied
verbatim from the event and the trace pair from the span) plus one header
per extension attribute of the event, and an extension whose key equals a
reserved key overwrites the reserved entry. -/
theorem send_headers_exact (e : Event) (tp ts : String) (b : List Nat)
    (pe a : Bool) (el : Nat)
    (hnd : (e.extensions.map Prod.fst).Nodup) :
    ∃ pub : Publishing,
      (send e tp ts ⟨some b, pe, a, el⟩).publishAttempt = some pub
      ∧ (∀ k v : String, (k, v) ∈ e.extensions → pub.headers k = some v)
      ∧ (∀ k : String, k ∉ e.extensions.map Prod.fst →
          pub.headers k =
            if k = "tracestate" then some ts
            else if k = "traceparent" then some tp
            else if k = "subject" then some e.subject
            else if k = "source" then some e.source
            else if k = "type" then some e.eventType
            else none)
      ∧ (∀ k : String, (pub.headers k).isSome ↔
          (k = "type" ∨ k = "source" ∨ k = "subject" ∨ k = "traceparent"
            ∨ k = "tracestate" ∨ k ∈ e.extensions.map Prod.fst)) := by
  refine ⟨{ headers := buildHeaders e tp ts, contentType := "application/json",
            body := b, deliveryMode := persistentMode }, ?_, ?_, ?_, ?_⟩
  · cases pe <;> cases a <;> simp [send]
  · intro k v hm
    show buildHeaders e tp ts k = some v
    unfold buildHeaders
    rw [foldl_tableSet_apply, lookupLast_of_mem e.extensions k v hnd hm]
  · intro k hk
    show buildHeaders e tp ts k = _
    unfold buildHeaders
    rw [foldl_tableSet_apply, lookupLast_eq_none e.extensions k hk]
    rfl
  · intro k
    show (buildHeaders e tp ts k).isSome ↔ _
    unfold buildHeaders
    rw [foldl_tableSet_apply]
    cases hll : lookupLast e.extensions k with
    | some v =>
        simp only [Option.isSome_some, true_iff]
        by_cases hk : k ∈ e.extensions.map Prod.fst
        · tauto
        · rw [lookupLast_eq_none e.extensions k hk] at hll
          cases hll
    | none =>
        have hk : k ∉ e.extensions.map Prod.fst := by
          intro hmem
          rcases List.mem_map.mp hmem with ⟨⟨k2, v2⟩, hin, hfst⟩
          have : k = k2 := hfst.symm
          subst this
          rw [lookupLast_of_mem e.extensions k v2 hnd hin] at hll
          cases hll
        simp only [tableSet, emptyTable]
        by_cases h1 : k = "tracestate" <;> by_cases h2 : k = "traceparent" <;>
          by_cases h3 : k = "subject" <;> by_cases h4 : k = "source" <;>
          by_cases h5 : k = "type" <;> simp_all

/-- Witness for C4 at a concrete event whose extensions contain a key that
collides with the reserved "type" key and a fresh key. -/
theorem send_headers_exact_witness :
    ((Event.mk "t0" "s0" "u0"
        [("type", "over"), ("custom", "cv")]).extensions.map Prod.fst).Nodup
    ∧ ∃ pub : Publishing,
        (send (Event.mk "t0" "s0" "u0" [("type", "over"), ("custom", "cv")])
            "tp0" "ts0" ⟨some [1], false, true, 3⟩).publishAttempt = some pub
        ∧ (∀ k v : String,
            (k, v) ∈ (Event.mk "t0" "s0" "u0"
              [("type", "over"), ("custom", "cv")]).extensions →
            pub.headers k = some v)
        ∧ (∀ k : String,
            k ∉ ((Event.mk "t0" "s0" "u0"
              [("type", "over"), ("custom", "cv")]).extensions.map Prod.fst) →
            pub.headers k =
              if k = "tracestate" then some "ts0"
              else if k = "traceparent" then some "tp0"
              else if k = "subject" then some "u0"
              else if k = "source" then some "s0"
              else if k = "type" then some "t0"
              else none)
        ∧ (∀ k : String, (pub.headers k).isSome ↔
            (k = "type" ∨ k = "source" ∨ k = "subject" ∨ k = "traceparent"
              ∨ k = "tracestate"
              ∨ k ∈ ((Event.mk "t0" "s0" "u0"
                  [("type", "over"), ("custom", "cv")]).extensions.map
                    Prod.fst))) :=
  ⟨by decide,
   send_headers_exact (Event.mk "t0" "s0" "u0" [("type", "over"), ("custom", "cv")])
     "tp0" "ts0" [1] false true 3 (by decide)⟩

/-- C6: whenever `CreateRabbitMQConnections` fails — setup failure or
failure to enable confirmation mode — it closes the partially-opened pair,
sends exactly one asynchronous `true` retry signal, and returns the error
with nil connection and channel; on success neither happens. -/
theorem create_connections_spec (c ch : Nat) (confirmErr : Bool) :
    ((createRabbitMQConnections none confirmErr).connection = none
      ∧ (createRabbitMQConnections none confirmErr).channel = none
      ∧ (createRabbitMQConnections none confirmErr).errored = true
      ∧ (createRabbitMQConnections none confirmErr).closedPartial = true
      ∧ (createRabbitMQConnections none confirmErr).retrySignals = [true])
    ∧ ((createRabbitMQConnections (some (c, ch)) true).connection = none
      ∧ (createRabbitMQConnections (some (c, ch)) true).channel = none
      ∧ (createRabbitMQConnections (some (c, ch)) true).errored = true
      ∧ (createRabbitMQConnections (some (c, ch)) true).closedPartial = true
      ∧ (createRabbitMQConnections (some (c, ch)) true).retrySignals = [true])
    ∧ ((createRabbitMQConnections (some (c, ch)) false).connection = some c
      ∧ (createRabbitMQConnections (some (c, ch)) false).channel = some ch
      ∧ (createRabbitMQConnections (some (c, ch)) false).errored = false
      ∧ (createRabbitMQConnections (some (c, ch)) false).closedPartial = false
      ∧ (createRabbitMQConnections (some (c, ch)) false).retrySignals = []) := by
  refine ⟨⟨rfl, rfl, rfl, rfl, rfl⟩, ?_, ?_⟩ <;>
    simp [createRabbitMQConnections, signalRetry]

theorem retryLoop_trues (connect : Nat → ConnResult) (n : Nat)
    (pre post : List Bool) (h : ∀ b ∈ pre, b = true) :
    retryLoop connect n (pre ++ false :: post) =
      (List.range' n pre.length).map (fun i => LoopAction.reconnect (connect i))
        ++ [LoopAction.closeRetry] := by
  induction pre generalizing n with
  | nil => rfl
  | cons b rest ih =>
      have hb : b = true := h b (List.mem_cons_self b rest)
      subst hb
      have hrest : ∀ b ∈ rest, b = true := fun b hb => h b (List.mem_cons_of_mem _ hb)
      show LoopAction.reconnect (connect n)
          :: retryLoop connect (n + 1) (rest ++ false :: post) = _
      rw [ih (n + 1) hrest, List.length_cons, List.range'_succ, List.map_cons,
        List.cons_append]

theorem retryLoopStored_trues (connect : Nat → ConnResult) (n : Nat)
    (stored : Option Nat × Option Nat) (pre post : List Bool)
    (h : ∀ b ∈ pre, b = true) :
    retryLoopStored connect n stored (pre ++ false :: post) =
      (List.range' n pre.length).foldl
        (fun _ i => ((connect i).connection, (connect i).channel)) stored := by
  induction pre generalizing n stored with
  | nil => rfl
  | cons b rest ih =>
      have hb : b = true := h b (List.mem_cons_self b rest)
      subst hb
      have hrest : ∀ b ∈ rest, b = true := fun b hb => h b (List.mem_cons_of_mem _ hb)
      show retryLoopStored connect (n + 1)
          ((connect n).connection, (connect n).channel) (rest ++ false :: post) = _
      rw [ih (n + 1) ((connect n).connection, (connect n).channel) hrest,
        List.length_cons, List.range'_succ, List.foldl_cons]

/-- C7: when the retry-loop goroutine receives a run of `true` values
followed by `false`, it performs one reconnect per `true` (the i-th one
invoking the i-th connect call, whose result replaces the stored pair), then
on `false` closes the retry channel and terminates: no reconnect happens
after the `false`, whatever signals follow, and the stored pair ends as the
last connect result. -/
theorem retry_loop_spec (connect : Nat → ConnResult)
    (stored : Option Nat × Option Nat) (pre post : List Bool)
    (h : ∀ b ∈ pre, b = true) :
    retryLoop connect 0 (pre ++ false :: post) =
      (List.range pre.length).map (fun i => LoopAction.reconnect (connect i))
        ++ [LoopAction.closeRetry]
    ∧ retryLoopStored connect 0 stored (pre ++ false :: post) =
        (List.range pre.length).foldl
          (fun _ i => ((connect i).connection, (connect i).channel)) stored := by
  rw [List.range_eq_range']
  exact ⟨retryLoop_trues connect 0 pre post h,
         retryLoopStored_trues connect 0 stored pre post h⟩

/-- Witness for C7: two `true` signals then `false` then a trailing `true`
that is never received; exactly two reconnects happen, in order, and the
close terminates the trace. -/
theorem retry_loop_spec_witness :
    (∀ b ∈ [true, true], b = true)
    ∧ (retryLoop (fun i => createRabbitMQConnections (some (i, i)) false) 0
          ([true, true] ++ false :: [true]) =
        (List.range 2).map (fun i =>
          LoopAction.reconnect (createRabbitMQConnections (some (i, i)) false))
          ++ [LoopAction.closeRetry]
      ∧ retryLoopStored (fun i => createRabbitMQConnections (some (i, i)) false) 0
          (none, none) ([true, true] ++ false :: [true]) =
        (List.range 2).foldl
          (fun _ i => ((createRabbitMQConnections (some (i, i)) false).connection,
            (createRabbitMQConnections (some (i, i)) false).channel))
          (none, none)) :=
  ⟨by decide,
   retry_loop_spec (fun i => createRabbitMQConnections (some (i, i)) false)
     (none, none) [true, true] [true] (by decide)⟩

/-- C8: a request whose method is not POST gets status 405 and causes no
publish attempt and no reporter call. -/
theorem serve_non_post (req : Request) (tp ts : String) (w : SendWorld)
    (h : req.method ≠ "POST") :
    (serveHTTP req tp ts w).written = 405
    ∧ (serveHTTP req tp ts w).publishAttempt = none
    ∧ (serveHTTP req tp ts w).dispatchReport = none
    ∧ (serveHTTP req tp ts w).countReport = none := by
  simp [serveHTTP, h]

/-- Witness for C8: a GET request to "/" yields 405 and no publish. -/
theorem serve_non_post_witness :
    ("GET" : String) ≠ "POST"
    ∧ (serveHTTP ⟨"GET", "/", none, true⟩ "tp" "ts"
          ⟨some [], false, true, 0⟩).written = 405
    ∧ (serveHTTP ⟨"GET", "/", none, true⟩ "tp" "ts"
          ⟨some [], false, true, 0⟩).publishAttempt = none
    ∧ (serveHTTP ⟨"GET", "/", none, true⟩ "tp" "ts"
          ⟨some [], false, true, 0⟩).dispatchReport = none
    ∧ (serveHTTP ⟨"GET", "/", none, true⟩ "tp" "ts"
          ⟨some [], false, true, 0⟩).countReport = none :=
  ⟨by decide,
   serve_non_post ⟨"GET", "/", none, true⟩ "tp" "ts" ⟨some [], false, true, 0⟩
     (by decide)⟩

theorem send_duration_cases (e : Event) (tp ts : String) (w : SendWorld) :
    (send e tp ts w).duration = noDuration
    ∨ ∃ el : Nat, (send e tp ts w).duration = (el : Int) := by
  obtain ⟨m, pe, a, el⟩ := w
  cases m <;> cases pe <;> cases a <;> simp [send]

/-- C9: for a request that reaches the publish step, the handler reports the
dispatch time exactly when the duration returned by `send` is not the
noDuration sentinel, always reports the event count with the resulting
status, and writes the status returned by `send`. -/
theorem serve_reports (e : Event) (tp ts : String) (w : SendWorld) :
    (serveHTTP ⟨"POST", "/", some e, true⟩ tp ts w).written
        = (send e tp ts w).status
    ∧ (serveHTTP ⟨"POST", "/", some e, true⟩ tp ts w).countReport
        = some (send e tp ts w).status
    ∧ ((serveHTTP ⟨"POST", "/", some e, true⟩ tp ts w).dispatchReport
          = some ((send e tp ts w).status, (send e tp ts w).duration)
        ↔ (send e tp ts w).duration ≠ noDuration) := by
  refine ⟨by simp [serveHTTP], by simp [serveHTTP], ?_⟩
  rcases send_duration_cases e tp ts w with hd | ⟨el, hd⟩
  · simp [serveHTTP, hd, noDuration]
  · have hlt : noDuration < (send e tp ts w).duration := by
      rw [hd]; unfold noDuration; omega
    have hne : (send e tp ts w).duration ≠ noDuration := by
      rw [hd]; unfold noDuration; omega
    simp [serveHTTP, hlt, hne]
